import Mathlib

/-!
Verification of the shoot normalization and caching pipeline of `api/server.js`.

The JavaScript source is shallowly embedded: JSON values become the `Json`
inductive, JavaScript strings become Lean `String`s manipulated through their
character lists, and each server function is translated into an executable
Lean definition carrying the same name.  Browser/engine built-ins that the
server merely calls (the WHATWG `URL` parser, `decodeURIComponent`,
`Number`, `JSON.parse`, `Date` parsing) are modelled by small executable
approximations that agree with the engine on the inputs the proofs evaluate;
their doc comments state the modelled scope.
-/

set_option autoImplicit false

/-- JSON-like JavaScript values.  `null` also stands for `undefined`: the
server only distinguishes them through truthiness and `typeof` checks, and
both are falsy non-objects, so one constructor is enough for the code paths
embedded here.  Numbers are modelled as integers; no claim touches
fractional numeric record fields. -/
inductive Json where
  | null
  | bool (b : Bool)
  | num (n : Int)
  | str (s : String)
  | arr (elems : List Json)
  | obj (fields : List (String × Json))
deriving Repr, Inhabited

/-- JavaScript truthiness of a value. -/
def jsTruthy : Json → Bool
  | .null => false
  | .bool b => b
  | .num n => n ≠ 0
  | .str s => s ≠ ""
  | .arr _ => true
  | .obj _ => true

/-- The JavaScript `a || b` operator: `a` when truthy, else `b`. -/
def jsOr (a b : Json) : Json := if jsTruthy a then a else b

/-- Property access `value?.key`: the first binding of an object field,
`null` (i.e. `undefined`) for anything else. -/
def Json.getF : Json → String → Json
  | .obj fields, key =>
    match fields.find? (fun f => f.1 == key) with
    | some f => f.2
    | none => .null
  | _, _ => .null

/-- ASCII lower-casing of a character, as `String.prototype.toLowerCase`
acts on the ASCII range (the only range the embedded code relies on). -/
def toLowerChar (c : Char) : Char :=
  if 'A' ≤ c && c ≤ 'Z' then Char.ofNat (c.toNat + 32) else c

/-- ASCII `toLowerCase` on strings. -/
def lowerStr (s : String) : String := String.mk (s.data.map toLowerChar)

def isDigitChar (c : Char) : Bool := '0' ≤ c && c ≤ '9'

def isLowerHexChar (c : Char) : Bool := isDigitChar c || ('a' ≤ c && c ≤ 'f')

/-- Whitespace trimmed by `String.prototype.trim` (ASCII subset). -/
def isJsSpace (c : Char) : Bool :=
  c = ' ' || c = '\t' || c = '\n' || c = '\r' || c.toNat = 11 || c.toNat = 12

/-- The JavaScript `String.prototype.trim`. -/
def jsTrim (s : String) : String :=
  String.mk (((s.data.dropWhile isJsSpace).reverse.dropWhile isJsSpace).reverse)

/-- Substring test on character lists, scanning every start position. -/
def charsIncludes (pat : List Char) : List Char → Bool
  | [] => pat.isPrefixOf []
  | c :: t => pat.isPrefixOf (c :: t) || charsIncludes pat t

/-- The JavaScript `s.includes(pat)`. -/
def strIncludes (s pat : String) : Bool := charsIncludes pat.data s.data

/-- The regex test `/^https?:\/\//.test(value)`. -/
def startsHttp (s : String) : Bool :=
  "http://".data.isPrefixOf s.data || "https://".data.isPrefixOf s.data

/-- The components of a parsed URL that the server reads. -/
structure UrlParts where
  hostname : String
  pathname : String
  search : String
deriving Repr, DecidableEq

/-- Split a character list at the first occurrence of one of the stop
characters, keeping the stop character in the second component. -/
def takeUntil (stops : List Char) : List Char → List Char × List Char
  | [] => ([], [])
  | c :: t =>
    if c ∈ stops then ([], c :: t)
    else
      let r := takeUntil stops t
      (c :: r.1, r.2)

/-- The suffix after the last occurrence of `sep`, or the whole list. -/
def afterLastSep (sep : Char) (l : List Char) : List Char :=
  (l.reverse.takeWhile (fun c => c ≠ sep)).reverse

/-- The prefix before the last occurrence of `sep` (the whole list when
`sep` does not occur). -/
def beforeLastSep (sep : Char) (l : List Char) : List Char :=
  if sep ∈ l then (l.reverse.dropWhile (fun c => c ≠ sep)).reverse.dropLast else l

/-- Model of `new URL(value)` restricted to `http(s)://` URLs, returning the
`hostname` (lower-cased, userinfo and port stripped), `pathname` and
`search` components the server reads.  URLs of other schemes, and the
engine's dot-segment and percent-encoding normalizations, are outside the
modelled scope: such inputs are mapped to `none`, which the callers treat
exactly like a `URL` constructor throw. -/
def jsParseURL (value : String) : Option UrlParts :=
  let cs := value.data
  let afterScheme :=
    if "https://".data.isPrefixOf cs then some (cs.drop 8)
    else if "http://".data.isPrefixOf cs then some (cs.drop 7)
    else none
  match afterScheme with
  | none => none
  | some rest =>
    let authSplit := takeUntil ['/', '?', '#'] rest
    let auth := afterLastSep '@' authSplit.1
    let port := if ':' ∈ auth then afterLastSep ':' auth else []
    let host := beforeLastSep ':' auth
    if host = [] then none
    else if ¬ port.all isDigitChar then none
    else
      let pathSplit := takeUntil ['?', '#'] authSplit.2
      let pathname :=
        match pathSplit.1 with
        | [] => "/"
        | p => String.mk p
      let search :=
        match pathSplit.2 with
        | '?' :: t =>
          let q := (takeUntil ['#'] t).1
          if q = [] then "" else String.mk ('?' :: q)
        | _ => ""
      some { hostname := String.mk (host.map toLowerChar), pathname, search }

def hexVal (c : Char) : Option Nat :=
  if '0' ≤ c && c ≤ '9' then some (c.toNat - 48)
  else if 'a' ≤ c && c ≤ 'f' then some (c.toNat - 87)
  else if 'A' ≤ c && c ≤ 'F' then some (c.toNat - 55)
  else none

/-- Model of `decodeURIComponent` on the ASCII range: `%XX` escapes with a
byte below `0x80` decode to that character, malformed escapes yield `none`
(the engine throws there, which the caller catches).  Multi-byte UTF-8
escapes are outside the modelled scope and also map to `none`. -/
def percentDecodeChars : List Char → Option (List Char)
  | '%' :: a :: b :: t =>
    match hexVal a, hexVal b with
    | some ha, some hb =>
      let n := ha * 16 + hb
      if n ≤ 127 then (percentDecodeChars t).map (fun r => Char.ofNat n :: r)
      else none
    | _, _ => none
  | '%' :: _ => none
  | c :: t => (percentDecodeChars t).map (fun r => c :: r)
  | [] => some []

/-- Character class at position `i` of the UUID regex
`[0-9a-f]{8}-[0-9a-f]{4}-[1-5][0-9a-f]{3}-[89ab][0-9a-f]{3}-[0-9a-f]{12}`. -/
def uuidCharOk (i : Nat) (c : Char) : Bool :=
  if i = 8 || i = 13 || i = 18 || i = 23 then c = '-'
  else if i = 14 then '1' ≤ c && c ≤ '5'
  else if i = 19 then c = '8' || c = '9' || c = 'a' || c = 'b'
  else isLowerHexChar c

/-- Does the UUID regex match at the head of the list? -/
def uuidAt (l : List Char) : Bool :=
  (l.take 36).length = 36 &&
    (List.range 36).all (fun i => uuidCharOk i ((l.take 36).getD i ' '))

/-- Leftmost match of the UUID regex, as `String.prototype.match` finds it. -/
def findUuid : List Char → Option (List Char)
  | [] => none
  | c :: t => if uuidAt (c :: t) then some ((c :: t).take 36) else findUuid t

/-- Generic engine for `String.prototype.replace(/pat/g, rep)`: at each
position, if `tryMatch` recognizes the pattern it returns the replacement
and the remainder after the consumed text, and scanning resumes there, as
the JavaScript global-replace cursor does.  Every matcher below consumes at
least one character, so a fuel of the input length is always sufficient. -/
def scanReplace (tryMatch : List Char → Option (List Char × List Char)) :
    Nat → List Char → List Char
  | _, [] => []
  | 0, l => l
  | fuel + 1, c :: t =>
    match tryMatch (c :: t) with
    | some r => r.1 ++ scanReplace tryMatch fuel r.2
    | none => c :: scanReplace tryMatch fuel t

/-- Consume an expected literal. -/
def dropExpect (pat : List Char) (l : List Char) : Option (List Char) :=
  if pat.isPrefixOf l then some (l.drop pat.length) else none

/-- Consume `\d+` (greedy, at least one digit). -/
def takeDigits1 (l : List Char) : Option (List Char) :=
  let ds := l.takeWhile isDigitChar
  if ds = [] then none else some (l.drop ds.length)

/-- Matcher for `/\/fit-in\/\d+x\d+\//` with replacement `"/"`. -/
def tryFitIn (l : List Char) : Option (List Char × List Char) :=
  match dropExpect "/fit-in/".data l with
  | none => none
  | some r1 =>
    match takeDigits1 r1 with
    | none => none
    | some r2 =>
      match dropExpect ['x'] r2 with
      | none => none
      | some r3 =>
        match takeDigits1 r3 with
        | none => none
        | some r4 =>
          match r4 with
          | '/' :: rem => some (['/'], rem)
          | _ => none

/-- Matcher for `/\/filters:[^\/]+\//` with replacement `"/"`. -/
def tryFilters (l : List Char) : Option (List Char × List Char) :=
  match dropExpect "/filters:".data l with
  | none => none
  | some r1 =>
    let seg := r1.takeWhile (fun c => c ≠ '/')
    if seg = [] then none
    else
      match r1.drop seg.length with
      | '/' :: rem => some (['/'], rem)
      | _ => none

/-- The lookahead `(?=\.[a-z0-9]+$)`: a dot then one or more lower-case
alphanumerics, ending the string. -/
def extAtEnd (l : List Char) : Bool :=
  match l with
  | '.' :: t => t ≠ [] && t.all (fun c => isDigitChar c || ('a' ≤ c && c ≤ 'z'))
  | _ => false

/-- Matcher for the size-suffix regex `-\d+x\d+(?=\.[a-z0-9]+$)` (global)
with empty replacement. -/
def trySizeSuffix (l : List Char) : Option (List Char × List Char) :=
  match l with
  | '-' :: r1 =>
    match takeDigits1 r1 with
    | none => none
    | some r2 =>
      match dropExpect ['x'] r2 with
      | none => none
      | some r3 =>
        match takeDigits1 r3 with
        | none => none
        | some r4 => if extAtEnd r4 then some ([], r4) else none
  | _ => none

def variantWords : List String := ["thumb", "thumbnail", "small", "medium", "large", "xl"]

/-- Matcher for `/_(thumb|thumbnail|small|medium|large|xl)(?=\.[a-z0-9]+$)/`
with empty replacement; alternatives are tried in regex order with the
lookahead, matching the engine's ordered alternation. -/
def tryVariantSuffix (l : List Char) : Option (List Char × List Char) :=
  match l with
  | '_' :: r1 =>
    match variantWords.findSome? (fun alt =>
      match dropExpect alt.data r1 with
      | some rem => if extAtEnd rem then some rem else none
      | none => none) with
    | some rem => some ([], rem)
    | none => none
  | _ => none

/-- Matcher for `/\/+/` with replacement `"/"` (collapse slash runs). -/
def trySlashRun : List Char → Option (List Char × List Char)
  | '/' :: t => some (['/'], t.dropWhile (fun c => c = '/'))
  | _ => none

/-- Embedding of `canonicalImageKey` of `api/server.js` on a string: trim, look for a
UUID substring, otherwise parse the URL and normalize hostname+path, and on
any parse failure fall back to the lower-cased trimmed string. -/
def canonicalImageKey (value : String) : String :=
  let trimmed := jsTrim value
  if trimmed = "" then ""
  else
    match findUuid (lowerStr trimmed).data with
    | some u => "uuid:" ++ String.mk u
    | none =>
      match jsParseURL trimmed with
      | none => lowerStr trimmed
      | some parts =>
        match percentDecodeChars parts.pathname.data with
        | none => lowerStr trimmed
        | some dec =>
          let p0 := dec.map toLowerChar
          let p1 := scanReplace tryFitIn p0.length p0
          let p2 := scanReplace tryFilters p1.length p1
          let p3 := scanReplace trySizeSuffix p2.length p2
          let p4 := scanReplace tryVariantSuffix p3.length p3
          let p5 := scanReplace trySlashRun p4.length p4
          parts.hostname ++ String.mk p5

/-- Application of `canonicalImageKey` to an arbitrary value: the source returns `""` for
any non-string (`typeof value !== "string"`). -/
def canonicalImageKeyJ : Json → String
  | .str s => canonicalImageKey s
  | _ => ""

/-- Embedding of `imageQualityScore` of `api/server.js`.  The source coerces via
`String(url || "")`; every call site passes a string, which is the case
embedded here. -/
def imageQualityScore (url : String) : Int :=
  let lower := lowerStr url
  (if strIncludes lower "original" || strIncludes lower "full" then 40 else 0)
    + (if strIncludes lower "large" || strIncludes lower "xl" then 20 else 0)
    + (if strIncludes lower "medium" then 10 else 0)
    + (if strIncludes lower "thumb" || strIncludes lower "thumbnail"
          || strIncludes lower "small" then -20 else 0)

def imageExts : List String := [".jpg", ".jpeg", ".png", ".webp", ".gif", ".avif"]

def formatHints : List String :=
  ["format=jpg", "format=jpeg", "format=png", "format=webp", "fm=jpg", "fm=png", "fm=webp"]

def nonImageExts : List String := [".mp4", ".mov", ".pdf", ".zip"]

def endsWithStr (s suf : String) : Bool := suf.data.isSuffixOf s.data

/-- Embedding of `looksLikeImageUrl` of `api/server.js` on a string value. -/
def looksLikeImageUrl (value : String) : Bool :=
  if ¬ startsHttp value then false
  else
    match jsParseURL value with
    | none => false
    | some parts =>
      let pathname := lowerStr parts.pathname
      let search := lowerStr parts.search
      let hasImageExt := imageExts.any (fun ext => endsWithStr pathname ext)
      let hasImageHint := formatHints.any (fun hint => strIncludes search hint)
      let looksNonImage := nonImageExts.any (fun ext => endsWithStr pathname ext)
      if looksNonImage then false else hasImageExt || hasImageHint

/-- Application of `looksLikeImageUrl` to an arbitrary value: the source returns `false`
for any non-string (`typeof value !== "string"`). -/
def looksLikeImageUrlJ : Json → Bool
  | .str s => looksLikeImageUrl s
  | _ => false

/-- Transient scored image candidate of the extractor. -/
structure ImageCandidate where
  url : String
  score : Int
deriving Repr, DecidableEq

/-- Lookup in the insertion-ordered association list modelling the
extractor's `Map` (`results.get(key)`). -/
def lookupAssoc (results : List (String × ImageCandidate)) (key : String) :
    Option ImageCandidate :=
  match results.find? (fun e => e.1 == key) with
  | some e => some e.2
  | none => none

/-- The `Map.prototype.set` update: an existing key keeps its insertion
position and gets the new value; a new key is appended. -/
def setAssoc (results : List (String × ImageCandidate)) (key : String)
    (cand : ImageCandidate) : List (String × ImageCandidate) :=
  if (results.find? (fun e => e.1 == key)).isSome then
    results.map (fun e => if e.1 == key then (key, cand) else e)
  else results ++ [(key, cand)]

def mediaKeyWords : List String :=
  ["photo", "image", "thumbnail", "cover", "hero", "media", "url"]

/-- The regex test covering key names that look media-related (the `i` flag
makes it a case-insensitive substring test). -/
def keyHasMediaWord (key : String) : Bool :=
  mediaKeyWords.any (fun w => strIncludes (lowerStr key) w)

/-- The candidate-recording body of `collectImageUrls`: compute the dedupe
key, drop empty keys, and keep the higher score, replacing on ties
(`next.score >= current.score`). -/
def collectCandidate (value : String) (results : List (String × ImageCandidate)) :
    List (String × ImageCandidate) :=
  let dedupeKey := canonicalImageKey value
  if dedupeKey = "" then results
  else
    let next : ImageCandidate := { url := value, score := imageQualityScore value }
    match lookupAssoc results dedupeKey with
    | none => setAssoc results dedupeKey next
    | some current =>
      if next.score ≥ current.score then setAssoc results dedupeKey next else results

mutual

/-- Embedding of `collectImageUrls` of `api/server.js`: recursively walk the record and
accumulate the best candidate per canonical key.  `Object.entries` of an
array yields its index/value pairs, hence the indexed traversal. -/
def collectImageUrls (item : Json) (results : List (String × ImageCandidate)) :
    List (String × ImageCandidate) :=
  match item with
  | .obj fields => collectFields fields results
  | .arr elems => collectIndexed 0 elems results
  | _ => results
termination_by structural item

/-- One `Object.entries` iteration of `collectImageUrls`: image-looking
string values are recorded (the key-name test is disjoined with
`looksLikeImageUrl(value)`, as in the source), arrays recurse element-wise,
and an object value goes through `collectImageUrls`, whose first step on an
object is to iterate its entries -- the call is unfolded to that step to
keep the recursion structural. -/
def collectEntry (key : String) (value : Json)
    (results : List (String × ImageCandidate)) : List (String × ImageCandidate) :=
  match value with
  | .str s =>
    if looksLikeImageUrl s then
      if keyHasMediaWord key || looksLikeImageUrl s then collectCandidate s results
      else results
    else results
  | .arr children => collectChildren children results
  | .obj ofields => collectFields ofields results
  | _ => results
termination_by structural value

def collectFields (fields : List (String × Json))
    (results : List (String × ImageCandidate)) : List (String × ImageCandidate) :=
  match fields with
  | [] => results
  | (key, value) :: rest => collectFields rest (collectEntry key value results)
termination_by structural fields

def collectIndexed (i : Nat) (elems : List Json)
    (results : List (String × ImageCandidate)) : List (String × ImageCandidate) :=
  match elems with
  | [] => results
  | value :: rest => collectIndexed (i + 1) rest (collectEntry (toString i) value results)
termination_by structural elems

def collectChildren (children : List Json)
    (results : List (String × ImageCandidate)) : List (String × ImageCandidate) :=
  match children with
  | [] => results
  | child :: rest => collectChildren rest (collectImageUrls child results)
termination_by structural children

end

def pickImageKeys : List String :=
  ["thumbnail_url", "cover_photo_url", "hero_image_url", "image_url", "url"]

/-- The fixed-priority key scan at the head of `pickImage`, on an object's
fields: the first candidate key whose value is a string starting with
`http(s)://`.  On arrays and primitives the candidate keys are all
`undefined`, so the scan is reached only for objects. -/
def pickDirectFields (fields : List (String × Json)) : String :=
  match pickImageKeys.findSome? (fun key =>
    match fields.find? (fun f => f.1 == key) with
    | some f =>
      match f.2 with
      | .str s => if startsHttp s then some s else none
      | _ => none
    | none => none) with
  | some s => s
  | none => ""

mutual

/-- Embedding of `pickImage` of `api/server.js`: try the priority keys, then walk
`Object.values` depth-first.  For an array the candidate-key lookups all
yield `undefined` and `Object.values` is the element list. -/
def pickImage (item : Json) : String :=
  match item with
  | .obj fields =>
    let direct := pickDirectFields fields
    if direct ≠ "" then direct else pickFieldValues fields
  | .arr elems => pickElemValues elems
  | _ => ""
termination_by structural item

/-- One `Object.values` element of the `pickImage` fallback walk: an array
value is scanned child by child, an object value goes through `pickImage`
(unfolded one step, to its candidate scan plus field walk, to keep the
recursion structural), and every other value is skipped. -/
def pickValue (value : Json) : String :=
  match value with
  | .arr children => pickChildren children
  | .obj ofields =>
    let direct := pickDirectFields ofields
    if direct ≠ "" then direct else pickFieldValues ofields
  | _ => ""
termination_by structural value

def pickFieldValues (fields : List (String × Json)) : String :=
  match fields with
  | [] => ""
  | (_, value) :: rest =>
    let r := pickValue value
    if r ≠ "" then r else pickFieldValues rest
termination_by structural fields

def pickElemValues (elems : List Json) : String :=
  match elems with
  | [] => ""
  | value :: rest =>
    let r := pickValue value
    if r ≠ "" then r else pickElemValues rest
termination_by structural elems

def pickChildren (children : List Json) : String :=
  match children with
  | [] => ""
  | child :: rest =>
    let childImage := pickImage child
    if childImage ≠ "" then childImage else pickChildren rest
termination_by structural children

end

def hexDigit (n : Nat) : Char := if n < 10 then Char.ofNat (48 + n) else Char.ofNat (87 + n)

/-- Escaping of one character inside a `JSON.stringify` string literal. -/
def escapeJsonChar (c : Char) : List Char :=
  if c = '"' then ['\\', '"']
  else if c = '\\' then ['\\', '\\']
  else if c = '\n' then ['\\', 'n']
  else if c = '\r' then ['\\', 'r']
  else if c = '\t' then ['\\', 't']
  else if c.toNat = 8 then ['\\', 'b']
  else if c.toNat = 12 then ['\\', 'f']
  else if c.toNat < 32 then ['\\', 'u', '0', '0', hexDigit (c.toNat / 16), hexDigit (c.toNat % 16)]
  else [c]

def quoteJsonString (s : String) : String :=
  "\"" ++ String.mk (s.data.flatMap escapeJsonChar) ++ "\""

mutual

/-- The `JSON.stringify` serialization (no indentation argument, as at the
call site in `normalizeAddress`). -/
def jsonStringify (v : Json) : String :=
  match v with
  | .null => "null"
  | .bool true => "true"
  | .bool false => "false"
  | .num n => toString n
  | .str s => quoteJsonString s
  | .arr elems => "[" ++ stringifyElems elems ++ "]"
  | .obj fields => "\x7b" ++ stringifyFields fields ++ "\x7d"
termination_by structural v

def stringifyElems (elems : List Json) : String :=
  match elems with
  | [] => ""
  | [x] => jsonStringify x
  | x :: rest => jsonStringify x ++ "," ++ stringifyElems rest
termination_by structural elems

def stringifyFields (fields : List (String × Json)) : String :=
  match fields with
  | [] => ""
  | [(k, v)] => quoteJsonString k ++ ":" ++ jsonStringify v
  | (k, v) :: rest => quoteJsonString k ++ ":" ++ jsonStringify v ++ "," ++ stringifyFields rest
termination_by structural fields

end

mutual

/-- The JavaScript `String(x)` coercion for the value shapes that can reach
`Array.prototype.join` in `normalizeAddress`. -/
def jsToString (v : Json) : String :=
  match v with
  | .null => "null"
  | .bool true => "true"
  | .bool false => "false"
  | .num n => toString n
  | .str s => s
  | .arr elems => jsArrJoin elems
  | .obj _ => "[object Object]"
termination_by structural v

def jsArrJoin (elems : List Json) : String :=
  match elems with
  | [] => ""
  | [x] => jsJoinElem x
  | x :: rest => jsJoinElem x ++ "," ++ jsArrJoin rest
termination_by structural elems

/-- Inside `Array.prototype.join`, `null` and `undefined` render as the
empty string; every other element goes through `String(x)` (the coercion is
spelled out branch by branch to keep the recursion structural). -/
def jsJoinElem (x : Json) : String :=
  match x with
  | .null => ""
  | .bool true => "true"
  | .bool false => "false"
  | .num n => toString n
  | .str s => s
  | .arr elems => jsArrJoin elems
  | .obj _ => "[object Object]"
termination_by structural x

end

/-- First 120 characters, as `String.prototype.slice(0, 120)`. -/
def strTake (s : String) (n : Nat) : String := String.mk (s.data.take n)

def addressPieceKeys : List String :=
  ["street_address", "street", "address_1", "city", "state", "postal_code"]

/-- The `pieces` array of `normalizeAddress`: the six address parts with
falsy entries removed (`filter(Boolean)`). -/
def addressPieces (raw : Json) : List Json :=
  (addressPieceKeys.map (fun k => raw.getF k)).filter jsTruthy

/-- The `pieces.join(", ")` call. -/
def joinPieces (pieces : List Json) : String :=
  match pieces with
  | [] => ""
  | [x] => jsJoinElem x
  | x :: rest => jsJoinElem x ++ ", " ++ joinPieces rest

/-- Embedding of `normalizeAddress` of `api/server.js`. -/
def normalizeAddress (raw : Json) : String :=
  if ¬ jsTruthy raw then "Address unavailable"
  else
    match raw with
    | .str s => s
    | _ =>
      let pieces := addressPieces raw
      if pieces.isEmpty then strTake (jsonStringify raw) 120
      else joinPieces pieces

/-- The `unique` map construction of `sanitizeShootMedia`: keep the first
occurrence of each canonical key, skipping non-image values, empty keys and
the thumbnail's key. -/
def sanitizeUnique (thumbKey : String) (candidatePhotos : List Json)
    (acc : List (String × Json)) : List (String × Json) :=
  match candidatePhotos with
  | [] => acc
  | value :: rest =>
    sanitizeUnique thumbKey rest
      (if looksLikeImageUrlJ value then
        let key := canonicalImageKeyJ value
        if key = "" then acc
        else if key = thumbKey then acc
        else if (acc.find? (fun e => e.1 == key)).isSome then acc
        else acc ++ [(key, value)]
      else acc)

/-- The `rawThumb` extraction of `sanitizeShootMedia`:
`typeof shoot?.thumbnail_url === "string" ? shoot.thumbnail_url : ""`. -/
def rawThumbOf : Json → String
  | .str s => s
  | _ => ""

/-- The `candidatePhotos` extraction of `sanitizeShootMedia`:
`Array.isArray(shoot?.photos) ? shoot.photos : []`. -/
def candidatePhotosOf : Json → List Json
  | .arr xs => xs
  | _ => []

/-- The surviving photo list of `sanitizeShootMedia`:
`[...unique.values()].slice(0, 24)`. -/
def sanitizePhotos (thumbKey : String) (candidatePhotos : List Json) : List Json :=
  ((sanitizeUnique thumbKey candidatePhotos []).map Prod.snd).take 24

/-- The thumbnail choice of `sanitizeShootMedia`:
`looksLikeImageUrl(rawThumb) ? rawThumb : (photos[0] || "")`. -/
def sanitizeThumbnail (rawThumb : String) (photos : List Json) : Json :=
  if looksLikeImageUrl rawThumb then .str rawThumb
  else jsOr (photos.headD .null) (.str "")

/-- Embedding of `sanitizeShootMedia` of `api/server.js`, restricted to the two fields it
reads and rewrites.  The source receives a whole shoot object and returns
`{...shoot, thumbnail_url, photos}`; all other fields pass through the
spread untouched, so the function is embedded on the `thumbnail_url` and
`photos` field values, returning the pair of rewritten field values. -/
def sanitizeShootMedia (thumbField photosField : Json) : Json × List Json :=
  let rawThumb := rawThumbOf thumbField
  let thumbKey := canonicalImageKey rawThumb
  let candidatePhotos := candidatePhotosOf photosField
  let photos := sanitizePhotos thumbKey candidatePhotos
  let thumbnailUrl := sanitizeThumbnail rawThumb photos
  (thumbnailUrl,
   if jsTruthy thumbnailUrl then
     photos.filter (fun value => canonicalImageKeyJ value != canonicalImageKeyJ thumbnailUrl)
   else photos)

/-- The canonical `Shoot` shape produced by `normalizeShoot`.  Fields whose
JavaScript value can have any type stay `Json`; `address` and the media
fields are strings by construction (the thumbnail is kept as `Json` because
`sanitizeShootMedia` computes it as a field value). -/
structure Shoot where
  id : Json
  address : String
  status : Json
  scheduled_at : Json
  created_at : Json
  updated_at : Json
  thumbnail_url : Json
  photos : List Json
deriving Repr

/-- The `order?.listing || order?.property || {}` resolution. -/
def listingOf (order : Json) : Json :=
  jsOr (order.getF "listing") (jsOr (order.getF "property") (.obj []))

/-- The argument `normalizeShoot` passes to `normalizeAddress`:
`listing?.address || order?.address || listing`. -/
def addressArg (order : Json) : Json :=
  let listing := listingOf order
  jsOr (listing.getF "address") (jsOr (order.getF "address") listing)

/-- The descending stable sort `candidates.sort((a, b) => b.score - a.score)`
(ECMAScript sort is required to be stable). -/
def sortByScoreDesc (l : List ImageCandidate) : List ImageCandidate :=
  l.mergeSort (fun a b => decide (b.score ≤ a.score))

/-- The pre-sanitization photos list of `normalizeShoot`: extractor values,
sorted by descending score, mapped to URLs, capped at 24. -/
def normalizePhotos (order : Json) : List String :=
  ((sortByScoreDesc ((collectImageUrls order []).map Prod.snd)).map (fun e => e.url)).take 24

/-- Embedding of `normalizeShoot` of `api/server.js`.  The source builds the shoot object
and passes it through `sanitizeShootMedia`; the embedding feeds the two
media fields to the restricted `sanitizeShootMedia` and keeps the remaining
fields, which the spread preserves. -/
def normalizeShoot (order : Json) : Shoot :=
  let listing := listingOf order
  let appointment :=
    match order.getF "appointments" with
    | .arr (a :: _) => a
    | _ => jsOr (order.getF "appointment") (.obj [])
  let scheduledAt :=
    jsOr (appointment.getF "start_at")
      (jsOr (appointment.getF "scheduled_at")
        (jsOr (appointment.getF "start_time")
          (jsOr (appointment.getF "starts_at")
            (jsOr (order.getF "scheduled_at")
              (jsOr (order.getF "appointment_at")
                (jsOr (order.getF "created_at") .null))))))
  let photos := normalizePhotos order
  let media := sanitizeShootMedia (.str (pickImage order)) (.arr (photos.map Json.str))
  { id := jsOr (order.getF "id") (jsOr (order.getF "uuid") (.str "unknown"))
    address := normalizeAddress (jsOr (listing.getF "address") (jsOr (order.getF "address") listing))
    status := jsOr (order.getF "status") (jsOr (order.getF "state") (.str "Unknown"))
    scheduled_at := scheduledAt
    created_at := jsOr (order.getF "created_at") .null
    updated_at := jsOr (order.getF "updated_at") .null
    thumbnail_url := media.1
    photos := media.2 }

/-- Cache age in milliseconds (`shootsCacheAgeMs`).  `updatedAtMs` is the
result of `new Date(shootsCache.updated_at).getTime()`: `none` models both a
`null` `updated_at` and an unparseable timestamp (`NaN`), for which the
source returns `Number.POSITIVE_INFINITY`; `none` plays the role of that
infinity. -/
def shootsCacheAgeMs (now : Int) (updatedAtMs : Option Int) : Option Int :=
  match updatedAtMs with
  | none => none
  | some t => some (now - t)

/-- Embedding of `isShootsCacheFresh`: age at most `TTL * 1000` milliseconds; an infinite
age (absent or unparseable `updated_at`) is never at most a finite bound. -/
def isShootsCacheFresh (ttlSeconds now : Int) (updatedAtMs : Option Int) : Bool :=
  match shootsCacheAgeMs now updatedAtMs with
  | none => false
  | some age => decide (age ≤ ttlSeconds * 1000)

/-- JavaScript numbers as the server observes them: an integer or `NaN`.
Fractional values do not arise on the modelled paths (query parameters are
either integer literals or non-numeric). -/
inductive JsNumber where
  | nan
  | int (n : Int)
deriving Repr, DecidableEq

/-- The `Math.min` call with `NaN` propagation. -/
def jsMin (a b : JsNumber) : JsNumber :=
  match a, b with
  | .int x, .int y => .int (min x y)
  | _, _ => .nan

/-- The `Math.max` call with `NaN` propagation. -/
def jsMax (a b : JsNumber) : JsNumber :=
  match a, b with
  | .int x, .int y => .int (max x y)
  | _, _ => .nan

def natOfDigits (ds : List Char) : Nat :=
  ds.foldl (fun acc c => acc * 10 + (c.toNat - 48)) 0

/-- Model of the `Number(string)` coercion on the shapes the server meets:
whitespace-trimmed empty strings give `0`, optionally signed decimal
integer literals give their value, anything else gives `NaN`.  Fractional,
hexadecimal and exponent literals are outside the modelled scope. -/
def jsStringToNumber (s : String) : JsNumber :=
  match (jsTrim s).data with
  | [] => .int 0
  | '-' :: ds => if ds ≠ [] && ds.all isDigitChar then .int (-(natOfDigits ds : Int)) else .nan
  | '+' :: ds => if ds ≠ [] && ds.all isDigitChar then .int (natOfDigits ds) else .nan
  | ds => if ds.all isDigitChar then .int (natOfDigits ds) else .nan

/-- One parsed record of the pipeline log: a decoded event, or the
`{parse_error: true, raw: line}` marker produced for an unparseable line. -/
inductive PipelineEntry where
  | event (payload : Json)
  | parseError (raw : String)
deriving Repr

/-- The JavaScript `content.split("\n")`. -/
def splitOnChar (sep : Char) : List Char → List (List Char)
  | [] => [[]]
  | c :: t =>
    let r := splitOnChar sep t
    if c = sep then [] :: r
    else
      match r with
      | h :: rest => (c :: h) :: rest
      | [] => [[c]]

/-- The line selection `content.trim().split("\n").filter(Boolean)`. -/
def pipelineLines (content : String) : List String :=
  ((splitOnChar '\n' (jsTrim content).data).map String.mk).filter (fun l => l ≠ "")

/-- The clamp `Math.max(1, Math.min(limit, 1000))`: for an integer limit
this lands in `[1, 1000]`, but a `NaN` limit (e.g. from `limit=abc` on the
route) propagates through both calls and stays `NaN`. -/
def clampPipelineLimit (limit : JsNumber) : JsNumber :=
  jsMax (.int 1) (jsMin limit (.int 1000))

/-- The slice `lines.slice(-k)` at the clamped count `k`.  For an integer
clamp (always at least `1`) this keeps the last `min k lines.length` lines;
for a `NaN` clamp, `slice(-NaN)` goes through `ToIntegerOrInfinity(NaN) = 0`
and becomes `slice(0)`, selecting the entire log with no bound. -/
def selectPipelineLines (limit : JsNumber) (lines : List String) : List String :=
  match clampPipelineLimit limit with
  | .nan => lines
  | .int k => lines.drop (lines.length - k.toNat)

/-- One `sliced.map(...)` step of `readPipelineEvents`: `JSON.parse` a line,
or flag it.  `parse` stands for the engine's `JSON.parse`, with `none`
modelling a parse throw. -/
def pipelineEntryOfLine (parse : String → Option Json) (line : String) : PipelineEntry :=
  match parse line with
  | some payload => .event payload
  | none => .parseError line

/-- Embedding of `readPipelineEvents` of `api/server.js`.  Here `file` is the pipeline file
content, `none` when `fs.existsSync` fails. -/
def readPipelineEvents (parse : String → Option Json) (limit : JsNumber)
    (file : Option String) : List PipelineEntry :=
  match file with
  | none => []
  | some content =>
    ((selectPipelineLines limit (pipelineLines content)).map (pipelineEntryOfLine parse)).reverse

/-- The source function's default parameter `limit = 200`. -/
def readPipelineEventsDefault (parse : String → Option Json) (file : Option String) :
    List PipelineEntry :=
  readPipelineEvents parse (.int 200) file

/-- The `includeCandidates` list built by `fetchAryeoWithIncludeFallback`:
the trimmed `params.include` when it is a non-empty string, then each
trimmed non-empty string fallback, then the empty sentinel meaning "no
include parameter". -/
def includeCandidates (includeParam : Option String) (fallbackIncludes : List Json) :
    List String :=
  (match includeParam with
   | some s => if jsTrim s ≠ "" then [jsTrim s] else []
   | none => []) ++
  (fallbackIncludes.filterMap (fun candidate =>
    match candidate with
    | .str s => if jsTrim s ≠ "" then some (jsTrim s) else none
    | _ => none)) ++
  [""]

/-- The rejection signature tested by the retry loop:
`message.includes("Requested include(s)") || message.includes("not allowed")`. -/
def isIncludeRejection (message : String) : Bool :=
  strIncludes message "Requested include(s)" || strIncludes message "not allowed"

/-- The retry loop of `fetchAryeoWithIncludeFallback`.  `fetch` is the
`fetchAryeo` call with all parameters other than `include` fixed; its
argument is the `include` parameter sent (`none` when deleted), and its
`Except` error is the thrown error's message string. -/
def fetchWithIncludeGo (fetch : Option String → Except String Json) :
    List String → Option String → Except String Json
  | [], lastError => .error (lastError.getD "Aryeo request failed")
  | includeValue :: rest, lastError =>
    match fetch (if includeValue ≠ "" then some includeValue else none) with
    | .ok payload => .ok payload
    | .error e =>
      if ¬ isIncludeRejection e = true ∨ includeValue = "" then .error e
      else fetchWithIncludeGo fetch rest (some e)

/-- Embedding of `fetchAryeoWithIncludeFallback` of `api/server.js`, over the modelled
fetch effect. -/
def fetchAryeoWithIncludeFallback (fetch : Option String → Except String Json)
    (includeParam : Option String) (fallbackIncludes : List Json) : Except String Json :=
  fetchWithIncludeGo fetch (includeCandidates includeParam fallbackIncludes) none

/-- The handler's `Number(url.searchParams.get("limit") || 24)`:
`searchParams.get` yields `null` for an absent parameter, and both `null`
and the empty string are falsy, so both default to `24`. -/
def parseLimitParam (raw : Option String) : JsNumber :=
  match raw with
  | none => .int 24
  | some s => if s = "" then .int 24 else jsStringToNumber s

/-- The handler's `Math.max(1, Math.min(limit, 100))`. -/
def pageSizeOf (limitRaw : Option String) : JsNumber :=
  jsMax (.int 1) (jsMin (parseLimitParam limitRaw) (.int 100))

/-- The `Array.prototype.slice(0, end)` count: `end` goes through
`ToIntegerOrInfinity`, under which `NaN` becomes `0`.  The value fed here is
already clamped below by `1`, so the negative-index case cannot arise. -/
def sliceCount : JsNumber → Nat
  | .nan => 0
  | .int n => n.toNat

/-- The in-memory `shootsCache` object. -/
structure CacheState where
  shoots : List Json
  updated_at : Option Int
  source_count : Int
deriving Repr

/-- The mutable server state the cache code touches: the cache, the
`shootsRefreshPromise` slot (`some id` names the in-flight promise), a
fresh-promise counter, and a ghost counter of provider fetch sequences
(`fetchLatestShoots` invocations) used to state the single-flight claim. -/
structure ServerState where
  cache : CacheState
  inflight : Option Nat
  nextPromiseId : Nat
  fetchSequences : Nat
deriving Repr

/-- The synchronous body of `refreshShootsCacheInBackground`: return the
existing in-flight promise if there is one, otherwise start one provider
fetch sequence and record its promise.  The returned `Nat` is the promise
the caller gets. -/
def refreshShootsCacheInBackground (s : ServerState) : ServerState × Nat :=
  match s.inflight with
  | some p => (s, p)
  | none =>
    ({ s with inflight := some s.nextPromiseId
            , nextPromiseId := s.nextPromiseId + 1
            , fetchSequences := s.fetchSequences + 1 }, s.nextPromiseId)

/-- Resolution of the refresh promise: the `.catch/.finally` chain clears
the promise slot; a successful fetch (`some nextCache`) replaces the cache,
a failure (`none`) leaves it unchanged. -/
def completeRefresh (s : ServerState) (outcome : Option CacheState) : ServerState :=
  { s with inflight := none, cache := outcome.getD s.cache }

/-- The media fields of `sanitizeShootMedia(shoot)` for a cached shoot of
arbitrary shape, as `handleShoots` re-applies it on every read. -/
def sanitizeShootMediaOf (shoot : Json) : Json × List Json :=
  sanitizeShootMedia (shoot.getF "thumbnail_url") (shoot.getF "photos")

/-- The `cache` metadata object of the `/api/shoots` response. -/
structure CacheMeta where
  updated_at : Option Int
  fresh : Bool
  refreshing : Bool
  ttl_seconds : Int
deriving Repr, DecidableEq

/-- The `/api/shoots` response body (shoots are kept as their sanitized
media fields). -/
structure ShootsResponse where
  shoots : List (Json × List Json)
  source_count : Int
  cache : CacheMeta
deriving Repr

/-- The response assembly of `handleShoots`: sanitize every cached shoot,
slice to the page size, and attach `source_count` (`shootsCache.source_count
|| shoots.length`, number truthiness) and the cache metadata, with
`refreshing` read after any trigger. -/
def serveShoots (ttl now : Int) (s : ServerState) (pageSize : JsNumber) : ShootsResponse :=
  let shoots := (s.cache.shoots.map sanitizeShootMediaOf).take (sliceCount pageSize)
  { shoots
  , source_count := if s.cache.source_count ≠ 0 then s.cache.source_count else (shoots.length : Int)
  , cache := { updated_at := s.cache.updated_at
             , fresh := isShootsCacheFresh ttl now s.cache.updated_at
             , refreshing := s.inflight.isSome
             , ttl_seconds := ttl } }

/-- Embedding of `handleShoots` of `api/server.js` as a synchronous step.  The handler
reads only the `limit` query parameter; `refreshRaw` carries the request's
`refresh` parameter, which the source never reads.  With an empty cache the
handler awaits the refresh promise and responds afterwards, which is
outside this synchronous step: that path returns the triggered state and no
response.  Otherwise a stale cache triggers a background refresh and the
current cache is served immediately. -/
def handleShoots (ttl now : Int) (s : ServerState) (limitRaw refreshRaw : Option String) :
    ServerState × Option ShootsResponse :=
  let pageSize := pageSizeOf limitRaw
  if s.cache.shoots.length = 0 then
    ((refreshShootsCacheInBackground s).1, none)
  else
    let s1 :=
      if ¬ isShootsCacheFresh ttl now s.cache.updated_at
      then (refreshShootsCacheInBackground s).1
      else s
    (s1, some (serveShoots ttl now s1 pageSize))

/-- Test fixture: a concrete stand-in for `JSON.parse` that fails exactly on
the line `"bad"`, used by concrete instantiations below. -/
def pipelineParseStub : String → Option Json :=
  fun s => if s = "bad" then none else some (.str s)

theorem looksLikeImageUrl_empty : looksLikeImageUrl "" = false := by decide

theorem canonicalImageKeyJ_empty_str : canonicalImageKeyJ (Json.str "") = "" := by decide

theorem looksLikeImageUrlJ_str {v : Json} (h : looksLikeImageUrlJ v = true) :
    ∃ s, v = Json.str s ∧ looksLikeImageUrl s = true := by
  cases v <;> simp_all [looksLikeImageUrlJ]

theorem looksLikeImageUrl_ne_empty {s : String} (h : looksLikeImageUrl s = true) : s ≠ "" := by
  intro hs
  rw [hs, looksLikeImageUrl_empty] at h
  cases h

/-- Every entry of the `unique` map built by `sanitizeShootMedia` is an
image-looking value keyed by its own non-empty canonical key, distinct from
the thumbnail's key. -/
theorem sanitizeUnique_entries (thumbKey : String) :
    ∀ (cs : List Json) (acc : List (String × Json)),
    (∀ e ∈ acc, looksLikeImageUrlJ e.2 = true ∧ e.1 = canonicalImageKeyJ e.2 ∧
        e.1 ≠ "" ∧ e.1 ≠ thumbKey) →
    ∀ e ∈ sanitizeUnique thumbKey cs acc,
      looksLikeImageUrlJ e.2 = true ∧ e.1 = canonicalImageKeyJ e.2 ∧
        e.1 ≠ "" ∧ e.1 ≠ thumbKey
  | [], acc, hacc => by simpa [sanitizeUnique] using hacc
  | v :: rest, acc, hacc => by
    simp only [sanitizeUnique]
    apply sanitizeUnique_entries thumbKey rest
    intro e he
    split_ifs at he with h1 h2 h3 h4
    · exact hacc e he
    · exact hacc e he
    · exact hacc e he
    · rcases List.mem_append.1 he with hin | hnew
      · exact hacc e hin
      · rcases List.mem_singleton.1 hnew with rfl
        exact ⟨h1, rfl, h2, h3⟩
    · exact hacc e he

/-- Every value of the `unique` map (hence every pre-filter photo) looks
like an image URL and has a non-empty canonical key. -/
theorem sanitize_photos_entries {thumbKey : String} {cs : List Json} {p : Json}
    (hp : p ∈ sanitizePhotos thumbKey cs) :
    looksLikeImageUrlJ p = true ∧ canonicalImageKeyJ p ≠ "" := by
  have hp2 := List.take_subset 24 _ hp
  rcases List.mem_map.1 hp2 with ⟨e, he, rfl⟩
  have := sanitizeUnique_entries thumbKey cs [] (by simp) e he
  exact ⟨this.1, this.2.1 ▸ this.2.2.1⟩

/-- C7: `isShootsCacheFresh` compares the cache age in milliseconds to
`TTL * 1000` with `≤`, so an `updated_at` exactly `TTL+1` seconds old is
stale, one exactly `TTL-1` seconds old is fresh, and a missing or
unparseable `updated_at` (infinite age) is never fresh. -/
theorem spec_C7 : ∀ ttl now : Int,
    isShootsCacheFresh ttl now (some (now - (ttl + 1) * 1000)) = false
  ∧ isShootsCacheFresh ttl now (some (now - (ttl - 1) * 1000)) = true
  ∧ isShootsCacheFresh ttl now none = false
  ∧ ∀ u : Int, isShootsCacheFresh ttl now (some u) = decide (now - u ≤ ttl * 1000) := by
  intro ttl now
  refine ⟨?_, ?_, rfl, fun u => rfl⟩
  · rw [isShootsCacheFresh, shootsCacheAgeMs, decide_eq_false_iff_not]
    omega
  · rw [isShootsCacheFresh, shootsCacheAgeMs, decide_eq_true_eq]
    omega

/-- C3: the refresh trigger is single-flight.  A trigger finding an
in-flight promise returns it and leaves the state (in particular the count
of provider fetch sequences) unchanged; from an idle state, the first
trigger starts exactly one provider fetch sequence and a second concurrent
trigger attaches to the same promise without starting another, so two
concurrent triggers yield exactly one fetch sequence. -/
theorem spec_C3 :
    (∀ (s : ServerState) (p : Nat), s.inflight = some p →
        refreshShootsCacheInBackground s = (s, p))
  ∧ (∀ s : ServerState, s.inflight = none →
        (refreshShootsCacheInBackground s).1.fetchSequences = s.fetchSequences + 1
      ∧ refreshShootsCacheInBackground (refreshShootsCacheInBackground s).1
          = ((refreshShootsCacheInBackground s).1, (refreshShootsCacheInBackground s).2)) := by
  constructor
  · intro s p h
    rw [refreshShootsCacheInBackground, h]
  · intro s h
    rw [refreshShootsCacheInBackground, h]
    exact ⟨rfl, rfl⟩

/-- Witness for C3 at concrete states: an in-flight state is returned
unchanged with its promise, and from an idle state two triggers produce one
fetch sequence and agree on the promise. -/
theorem spec_C3_witness :
    refreshShootsCacheInBackground ⟨⟨[], none, 0⟩, some 7, 8, 5⟩ = (⟨⟨[], none, 0⟩, some 7, 8, 5⟩, 7)
  ∧ (refreshShootsCacheInBackground ⟨⟨[], none, 0⟩, none, 8, 5⟩).1.fetchSequences = 6
  ∧ refreshShootsCacheInBackground (refreshShootsCacheInBackground ⟨⟨[], none, 0⟩, none, 8, 5⟩).1
      = ((refreshShootsCacheInBackground ⟨⟨[], none, 0⟩, none, 8, 5⟩).1,
         (refreshShootsCacheInBackground ⟨⟨[], none, 0⟩, none, 8, 5⟩).2) :=
  ⟨spec_C3.1 ⟨⟨[], none, 0⟩, some 7, 8, 5⟩ 7 rfl,
   (spec_C3.2 ⟨⟨[], none, 0⟩, none, 8, 5⟩ rfl).1,
   (spec_C3.2 ⟨⟨[], none, 0⟩, none, 8, 5⟩ rfl).2⟩

/-- The include-candidate list always consists of non-empty candidates
followed by the single empty sentinel (the no-include attempt). -/
theorem includeCandidates_shape (includeParam : Option String) (fallbacks : List Json) :
    ∃ pre, includeCandidates includeParam fallbacks = pre ++ [""] ∧ "" ∉ pre := by
  refine ⟨(match includeParam with
    | some s => if jsTrim s ≠ "" then [jsTrim s] else []
    | none => []) ++ fallbacks.filterMap (fun candidate =>
      match candidate with
      | .str s => if jsTrim s ≠ "" then some (jsTrim s) else none
      | _ => none), ?_, ?_⟩
  · rw [includeCandidates.eq_def, List.append_assoc]
  · intro hmem
    rcases List.mem_append.1 hmem with h | h
    · rcases includeParam with _ | s
      · simp at h
      · have h2 : "" ∈ (if jsTrim s ≠ "" then [jsTrim s] else []) := h
        by_cases hs : jsTrim s ≠ ""
        · rw [if_pos hs] at h2
          exact hs ((List.mem_singleton.1 h2).symm)
        · rw [if_neg hs] at h2
          simp at h2
    · rcases List.mem_filterMap.1 h with ⟨c, _, hc⟩
      rcases c with _ | b | n | s | el | fs
      · exact Option.noConfusion hc
      · exact Option.noConfusion hc
      · exact Option.noConfusion hc
      · have hc2 : (if jsTrim s ≠ "" then some (jsTrim s) else none) = some "" := hc
        by_cases hcond : jsTrim s ≠ ""
        · rw [if_pos hcond] at hc2
          exact hcond (Option.some.inj hc2)
        · rw [if_neg hcond] at hc2
          exact Option.noConfusion hc2
      · exact Option.noConfusion hc
      · exact Option.noConfusion hc

/-- When every attempt fails with a rejection-signature error, the loop
walks all candidates and surfaces the error of the final no-include
attempt. -/
theorem fetchWithIncludeGo_all_rejected (fetch : Option String → Except String Json)
    (errF : Option String → String)
    (hf : ∀ o, fetch o = .error (errF o))
    (hrej : ∀ o, isIncludeRejection (errF o) = true) :
    ∀ (pre : List String), "" ∉ pre → ∀ le : Option String,
    fetchWithIncludeGo fetch (pre ++ [""]) le = .error (errF none)
  | [], _, le => by
    simp [fetchWithIncludeGo, hf none]
  | iv :: pre, hnin, le => by
    have hiv : iv ≠ "" := fun h => hnin (h ▸ List.mem_cons_self iv pre)
    have hiv2 : "" ∉ pre := fun h => hnin (List.mem_cons_of_mem iv h)
    have harg : (if iv ≠ "" then some iv else none) = some iv := if_pos hiv
    rw [List.cons_append]
    simp only [fetchWithIncludeGo, harg, hf (some iv)]
    rw [if_neg (by simp [hrej (some iv), hiv])]
    exact fetchWithIncludeGo_all_rejected fetch errF hf hrej pre hiv2 (some (errF (some iv)))

/-- C4: the include-fallback retry loop.  A failure carrying the rejection
signature while an include parameter was sent moves on to the next
candidate; a failure without the signature, or any failure of the
no-include attempt, propagates immediately; the candidate list always ends
with the bare no-include attempt; and when every attempt fails (all with
the rejection signature, the only way every attempt can run), the error of
the last attempt -- the no-include one -- is surfaced. -/
theorem spec_C4 :
    (∀ (fetch : Option String → Except String Json) (iv : String) (rest : List String)
        (le : Option String) (e : String),
        iv ≠ "" → fetch (some iv) = .error e → isIncludeRejection e = true →
        fetchWithIncludeGo fetch (iv :: rest) le = fetchWithIncludeGo fetch rest (some e))
  ∧ (∀ (fetch : Option String → Except String Json) (iv : String) (rest : List String)
        (le : Option String) (e : String),
        fetch (if iv ≠ "" then some iv else none) = .error e → isIncludeRejection e = false →
        fetchWithIncludeGo fetch (iv :: rest) le = .error e)
  ∧ (∀ (fetch : Option String → Except String Json) (rest : List String)
        (le : Option String) (e : String),
        fetch none = .error e →
        fetchWithIncludeGo fetch ("" :: rest) le = .error e)
  ∧ (∀ (includeParam : Option String) (fallbacks : List Json),
        ∃ pre, includeCandidates includeParam fallbacks = pre ++ [""] ∧ "" ∉ pre)
  ∧ (∀ (fetch : Option String → Except String Json) (errF : Option String → String)
        (includeParam : Option String) (fallbacks : List Json),
        (∀ o, fetch o = .error (errF o)) →
        (∀ o, isIncludeRejection (errF o) = true) →
        fetchAryeoWithIncludeFallback fetch includeParam fallbacks = .error (errF none)) := by
  refine ⟨?_, ?_, ?_, includeCandidates_shape, ?_⟩
  · intro fetch iv rest le e hiv hf hrej
    have harg : (if iv ≠ "" then some iv else none) = some iv := if_pos hiv
    simp only [fetchWithIncludeGo, harg, hf]
    rw [if_neg (by simp [hrej, hiv])]
  · intro fetch iv rest le e hf hrej
    simp only [fetchWithIncludeGo, hf]
    rw [if_pos (Or.inl (by simp [hrej]))]
  · intro fetch rest le e hf
    simp [fetchWithIncludeGo, hf]
  · intro fetch errF includeParam fallbacks hf hrej
    obtain ⟨pre, heq, hnin⟩ := includeCandidates_shape includeParam fallbacks
    rw [fetchAryeoWithIncludeFallback, heq]
    exact fetchWithIncludeGo_all_rejected fetch errF hf hrej pre hnin none

/-- Witness for C4 at concrete fetch behaviors: a rejection-signature
failure with an include parameter moves to the next candidate, an unrelated
failure and a no-include failure propagate, the candidate list ends with
the no-include sentinel, and an always-rejecting provider surfaces the
final attempt's error. -/
theorem spec_C4_witness :
    fetchWithIncludeGo
        (fun o => Except.error (match o with | some _ => "not allowed" | none => "fail"))
        ["a", ""] none
      = fetchWithIncludeGo
          (fun o => Except.error (match o with | some _ => "not allowed" | none => "fail"))
          [""] (some "not allowed")
  ∧ fetchWithIncludeGo (fun _ => Except.error "HTTP 500") ["a"] none
      = Except.error "HTTP 500"
  ∧ fetchWithIncludeGo
        (fun o => Except.error (match o with | some _ => "not allowed" | none => "fail"))
        [""] (some "x")
      = Except.error "fail"
  ∧ (∃ pre, includeCandidates (some " listing ") [Json.str "items", Json.num 3]
        = pre ++ [""] ∧ "" ∉ pre)
  ∧ fetchAryeoWithIncludeFallback
        (fun _ => Except.error "Aryeo API 400: Requested include(s) rejected")
        (some "listing,appointments") [Json.str "listing"]
      = Except.error "Aryeo API 400: Requested include(s) rejected" := by
  have hrej : isIncludeRejection "Aryeo API 400: Requested include(s) rejected" = true := by
    decide
  exact ⟨spec_C4.1 _ "a" [""] none "not allowed" (by decide) rfl (by decide),
    spec_C4.2.1 _ "a" [] none "HTTP 500" rfl (by decide),
    spec_C4.2.2.1 _ [] (some "x") "fail" rfl,
    spec_C4.2.2.2.1 (some " listing ") [Json.str "items", Json.num 3],
    spec_C4.2.2.2.2 _ (fun _ => "Aryeo API 400: Requested include(s) rejected")
      (some "listing,appointments") [Json.str "listing"] (fun _ => rfl) (fun _ => hrej)⟩

/-- C8 (amended): a pipeline-log read whose selected lines hold one
unparseable line among parseable ones returns one entry per selected line
-- the parsed events plus a single parse-error marker in that line's
position -- in newest-first order, and the read is a total function (no
line dropped, no failure), whatever the limit.  A numeric limit is clamped
to `[1, 1000]` (the source's default parameter is `200`) and selects the
last `min(clamp, length)` lines; a `NaN` limit, which `Number()` produces
for a non-numeric `limit` query parameter, propagates through the clamp and
makes `slice(-NaN)` select the entire log, bypassing the bound -- see the
counterexample. -/
theorem spec_C8 : ∀ (parse : String → Option Json) (limit : JsNumber) (content : String)
    (pre post : List String) (bad : String),
    selectPipelineLines limit (pipelineLines content) = pre ++ bad :: post →
    (∀ l ∈ pre, (parse l).isSome = true) →
    (∀ l ∈ post, (parse l).isSome = true) →
    parse bad = none →
    readPipelineEvents parse limit (some content)
        = (post.map (pipelineEntryOfLine parse)).reverse
            ++ PipelineEntry.parseError bad :: (pre.map (pipelineEntryOfLine parse)).reverse
    ∧ (readPipelineEvents parse limit (some content)).length = pre.length + post.length + 1
    ∧ (∀ l ∈ pre ++ post, ∃ j, pipelineEntryOfLine parse l = PipelineEntry.event j)
    ∧ (∀ n : Int, limit = .int n →
        clampPipelineLimit limit = .int (max 1 (min n 1000))
      ∧ 1 ≤ max 1 (min n 1000) ∧ max 1 (min n 1000) ≤ 1000
      ∧ (selectPipelineLines limit (pipelineLines content)).length
          = min (max 1 (min n 1000)).toNat (pipelineLines content).length)
    ∧ (limit = .nan → selectPipelineLines limit (pipelineLines content) = pipelineLines content)
    ∧ readPipelineEventsDefault parse (some content)
        = readPipelineEvents parse (.int 200) (some content) := by
  intro parse limit content pre post bad hsel hpre hpost hbad
  have hentry : pipelineEntryOfLine parse bad = PipelineEntry.parseError bad := by
    simp [pipelineEntryOfLine, hbad]
  have h1 : readPipelineEvents parse limit (some content)
      = (post.map (pipelineEntryOfLine parse)).reverse
          ++ PipelineEntry.parseError bad :: (pre.map (pipelineEntryOfLine parse)).reverse := by
    simp only [readPipelineEvents]
    rw [hsel]
    simp [hentry, List.append_assoc]
  refine ⟨h1, ?_, ?_, ?_, ?_, rfl⟩
  · rw [h1]
    simp
    omega
  · intro l hl
    rcases List.mem_append.1 hl with h | h
    · obtain ⟨j, hj⟩ := Option.isSome_iff_exists.mp (hpre l h)
      exact ⟨j, by simp [pipelineEntryOfLine, hj]⟩
    · obtain ⟨j, hj⟩ := Option.isSome_iff_exists.mp (hpost l h)
      exact ⟨j, by simp [pipelineEntryOfLine, hj]⟩
  · rintro n rfl
    have hclamp : clampPipelineLimit (JsNumber.int n) = .int (max 1 (min n 1000)) := by
      simp [clampPipelineLimit, jsMin, jsMax]
    refine ⟨hclamp, by omega, by omega, ?_⟩
    rw [selectPipelineLines, hclamp]
    simp [List.length_drop]
    omega
  · rintro rfl
    rfl

/-- Counterexample for C8 as frozen: the route's `Number("abc")` is `NaN`,
the clamp `Math.max(1, Math.min(NaN, 1000))` stays `NaN`, and the read's
line selection (`lines.slice(-NaN)`, i.e. `slice(0)`) then keeps all of a
1001-line log, although a limit clamped into `[1, 1000]` could keep at
most 1000 lines. -/
theorem spec_C8_counterexample :
    jsStringToNumber "abc" = JsNumber.nan
  ∧ clampPipelineLimit JsNumber.nan = JsNumber.nan
  ∧ selectPipelineLines JsNumber.nan (List.replicate 1001 "x") = List.replicate 1001 "x"
  ∧ (selectPipelineLines JsNumber.nan (List.replicate 1001 "x")).length = 1001
  ∧ ¬ ∃ c : Nat, 1 ≤ c ∧ c ≤ 1000 ∧ min c 1001 = 1001 := by
  have hsel : ∀ l : List String, selectPipelineLines JsNumber.nan l = l := fun _ => rfl
  refine ⟨by decide, by decide, hsel _, ?_, ?_⟩
  · rw [hsel]
    exact List.length_replicate 1001 "x"
  · rintro ⟨c, hc1, hc2, hc3⟩
    omega

/-- Witness for C8: a three-line log whose middle line is corrupted yields
three entries, newest first, with the parse-error marker in the middle;
the integer limit `5` selects `min (max 1 (min 5 1000)) 3` lines, and a
`NaN` limit selects the whole log. -/
theorem spec_C8_witness :
    readPipelineEvents pipelineParseStub (.int 5) (some "alpha\nbad\ngamma")
        = (["gamma"].map (pipelineEntryOfLine pipelineParseStub)).reverse
            ++ PipelineEntry.parseError "bad"
              :: (["alpha"].map (pipelineEntryOfLine pipelineParseStub)).reverse
  ∧ (readPipelineEvents pipelineParseStub (.int 5) (some "alpha\nbad\ngamma")).length = 1 + 1 + 1
  ∧ (selectPipelineLines (.int 5) (pipelineLines "alpha\nbad\ngamma")).length
      = min (max 1 (min 5 1000) : Int).toNat (pipelineLines "alpha\nbad\ngamma").length
  ∧ selectPipelineLines JsNumber.nan (pipelineLines "alpha\nbad\ngamma")
      = pipelineLines "alpha\nbad\ngamma" := by
  have h1 := spec_C8 pipelineParseStub (.int 5) "alpha\nbad\ngamma" ["alpha"] ["gamma"] "bad"
    (by decide) (by decide) (by decide) rfl
  have h2 := spec_C8 pipelineParseStub .nan "alpha\nbad\ngamma" ["alpha"] ["gamma"] "bad"
    (by decide) (by decide) (by decide) rfl
  exact ⟨h1.1, h1.2.1, (h1.2.2.2.1 5 rfl).2.2.2, h2.2.2.2.2.1 rfl⟩

theorem refresh_preserves_cache (s : ServerState) :
    (refreshShootsCacheInBackground s).1.cache = s.cache := by
  rcases h : s.inflight with _ | p <;> simp [refreshShootsCacheInBackground, h]

/-- With a non-empty cache, `handleShoots` serves the current cache
synchronously: the state after the step has the same cache, and the
response is `serveShoots` of that state at the computed page size. -/
theorem handleShoots_serves (ttl now : Int) (s : ServerState) (limitRaw refreshRaw : Option String)
    (hne : ¬ s.cache.shoots.length = 0) :
    ∃ s1 : ServerState, s1.cache = s.cache ∧
      handleShoots ttl now s limitRaw refreshRaw
        = (s1, some (serveShoots ttl now s1 (pageSizeOf limitRaw))) := by
  by_cases hf : isShootsCacheFresh ttl now s.cache.updated_at = true
  · refine ⟨s, rfl, ?_⟩
    simp [handleShoots, hne, hf]
  · refine ⟨(refreshShootsCacheInBackground s).1, refresh_preserves_cache s, ?_⟩
    simp [handleShoots, hne, hf]

theorem serveShoots_length (ttl now : Int) (s : ServerState) (k : JsNumber) :
    (serveShoots ttl now s k).shoots.length = min (sliceCount k) s.cache.shoots.length := by
  simp [serveShoots]

/-- C9 (amended): for a request whose `limit` parameter is absent (default
24) or an integer-parsing string, the page size is the limit capped to
`[1, 100]` and the number of shoots served is the minimum of that cap and
the cached shoot count at serve time (stated for the synchronous non-empty
cache path).  A non-numeric `limit` makes `Number()` return `NaN`, which
`slice` turns into an empty page -- see the counterexample. -/
theorem spec_C9 :
    (∀ (ttl now : Int) (s : ServerState) (r : Option String),
        ¬ s.cache.shoots.length = 0 →
        Option.map (fun resp => resp.shoots.length) (handleShoots ttl now s none r).2
          = some (min 24 s.cache.shoots.length))
  ∧ (∀ (ttl now : Int) (s : ServerState) (raw : Option String) (r : Option String) (n : Int),
        ¬ s.cache.shoots.length = 0 →
        parseLimitParam raw = .int n →
        (1 ≤ (max 1 (min n 100)).toNat ∧ (max 1 (min n 100)).toNat ≤ 100)
      ∧ Option.map (fun resp => resp.shoots.length) (handleShoots ttl now s raw r).2
          = some (min (max 1 (min n 100)).toNat s.cache.shoots.length)) := by
  have main : ∀ (ttl now : Int) (s : ServerState) (raw : Option String) (r : Option String)
      (n : Int), ¬ s.cache.shoots.length = 0 → parseLimitParam raw = .int n →
      Option.map (fun resp => resp.shoots.length) (handleShoots ttl now s raw r).2
        = some (min (max 1 (min n 100)).toNat s.cache.shoots.length) := by
    intro ttl now s raw r n hne hn
    obtain ⟨s1, hcache, heq⟩ := handleShoots_serves ttl now s raw r hne
    rw [heq]
    simp only [Option.map_some']
    rw [serveShoots_length, hcache]
    congr 1
    rw [pageSizeOf, hn]
    simp [jsMin, jsMax, sliceCount]
  constructor
  · intro ttl now s r hne
    have h := main ttl now s none r 24 hne rfl
    simpa using h
  · intro ttl now s raw r n hne hn
    exact ⟨⟨by omega, by omega⟩, main ttl now s raw r n hne hn⟩

/-- Counterexample for C9 as frozen: a request with `limit=abc` against a
one-shoot fresh cache returns zero shoots, while any limit capped into
`[1, 100]` would require `min cap 1 = 1` of them: `Number("abc")` is `NaN`,
which survives the `Math.max/Math.min` chain and makes `slice(0, NaN)`
empty. -/
theorem spec_C9_counterexample :
    Option.map (fun resp => resp.shoots.length)
        (handleShoots 21600 0
          ⟨⟨[Json.obj [("thumbnail_url", Json.str "https://a.example/x.jpg"),
                        ("photos", Json.arr [])]], some 0, 1⟩, none, 0, 0⟩
          (some "abc") none).2
      = some 0
  ∧ ¬ ∃ c : Nat, 1 ≤ c ∧ c ≤ 100 ∧ min c 1 = 0 := by
  constructor
  · decide
  · rintro ⟨c, h1, h2, h3⟩
    omega

/-- Witness for C9 at a one-shoot cache: the default (absent limit) serves
`min 24 1 = 1` shoot, and `limit=3` serves `min 3 1 = 1` shoot with the cap
inside `[1, 100]`. -/
theorem spec_C9_witness :
    Option.map (fun resp => resp.shoots.length)
        (handleShoots 21600 0
          ⟨⟨[Json.obj [("thumbnail_url", Json.str "https://a.example/x.jpg"),
                        ("photos", Json.arr [])]], some 0, 1⟩, none, 0, 0⟩
          none none).2
      = some (min 24 1)
  ∧ (1 ≤ (max 1 (min 3 100) : Int).toNat ∧ (max 1 (min 3 100) : Int).toNat ≤ 100)
  ∧ Option.map (fun resp => resp.shoots.length)
        (handleShoots 21600 0
          ⟨⟨[Json.obj [("thumbnail_url", Json.str "https://a.example/x.jpg"),
                        ("photos", Json.arr [])]], some 0, 1⟩, none, 0, 0⟩
          (some "3") none).2
      = some (min (max 1 (min 3 100) : Int).toNat 1) := by
  refine ⟨?_, ?_⟩
  · exact spec_C9.1 21600 0 _ none (by decide)
  · exact spec_C9.2 21600 0 _ (some "3") none 3 (by decide) rfl

/-- C2 (code bug): the repository README documents
`/api/shoots?limit=24&refresh=1` as forcing an immediate refresh, but
`handleShoots` never reads a `refresh` parameter: the response is
literally independent of it, and with a fresh non-empty cache a
`refresh=1` request triggers no refresh at all (the promise slot stays
empty and no provider fetch sequence starts) while still serving the
cached data. -/
theorem spec_C2 :
    (∀ (ttl now : Int) (s : ServerState) (limitRaw r1 r2 : Option String),
        handleShoots ttl now s limitRaw r1 = handleShoots ttl now s limitRaw r2)
  ∧ (handleShoots 21600 0
        ⟨⟨[Json.obj [("thumbnail_url", Json.str "https://a.example/x.jpg"),
                      ("photos", Json.arr [])]], some 0, 1⟩, none, 0, 0⟩
        none (some "1")).1.inflight = none
  ∧ (handleShoots 21600 0
        ⟨⟨[Json.obj [("thumbnail_url", Json.str "https://a.example/x.jpg"),
                      ("photos", Json.arr [])]], some 0, 1⟩, none, 0, 0⟩
        none (some "1")).1.fetchSequences = 0
  ∧ Option.map (fun resp => resp.shoots.length)
        (handleShoots 21600 0
          ⟨⟨[Json.obj [("thumbnail_url", Json.str "https://a.example/x.jpg"),
                        ("photos", Json.arr [])]], some 0, 1⟩, none, 0, 0⟩
          none (some "1")).2
      = some 1 := by
  refine ⟨fun _ _ _ _ _ _ => rfl, ?_, ?_, ?_⟩
  · decide
  · decide
  · decide

/-- A chosen thumbnail that is not truthy must be the empty string: the raw
thumbnail branch requires an image-looking (hence non-empty) string and the
`photos[0] || ""` fallback yields either a truthy first photo or `""`. -/
theorem sanitizeThumbnail_of_untruthy {rawThumb : String} {photos : List Json}
    (h : jsTruthy (sanitizeThumbnail rawThumb photos) = false) :
    sanitizeThumbnail rawThumb photos = Json.str "" := by
  rw [sanitizeThumbnail] at h ⊢
  by_cases hl : looksLikeImageUrl rawThumb = true
  · exfalso
    rw [if_pos hl] at h
    have hempty : rawThumb = "" := by simpa [jsTruthy] using h
    rw [hempty, looksLikeImageUrl_empty] at hl
    cases hl
  · rw [if_neg hl] at h ⊢
    rw [jsOr] at h ⊢
    by_cases hh : jsTruthy (photos.headD Json.null) = true
    · rw [if_pos hh] at h
      rw [hh] at h
      cases h
    · rw [if_neg hh]

/-- The chosen thumbnail is the empty string or an image-looking URL. -/
theorem sanitizeThumbnail_cases (rawThumb : String) (photos : List Json)
    (hmem : ∀ p ∈ photos, looksLikeImageUrlJ p = true) :
    sanitizeThumbnail rawThumb photos = Json.str "" ∨
      looksLikeImageUrlJ (sanitizeThumbnail rawThumb photos) = true := by
  rw [sanitizeThumbnail]
  by_cases hl : looksLikeImageUrl rawThumb = true
  · right
    rw [if_pos hl]
    exact hl
  · rw [if_neg hl]
    rcases photos with _ | ⟨v, rest⟩
    · left
      rfl
    · by_cases hv : jsTruthy v = true
      · right
        have hmv := hmem v (List.mem_cons_self v rest)
        simpa [jsOr, hv] using hmv
      · left
        simp [jsOr, hv]

/-- The photos returned by `sanitizeShootMedia` never collide with the
chosen thumbnail's canonical key. -/
theorem sanitizeShootMedia_disjoint (tf pf : Json) :
    ∀ p ∈ (sanitizeShootMedia tf pf).2,
      canonicalImageKeyJ p ≠ canonicalImageKeyJ (sanitizeShootMedia tf pf).1 := by
  intro p hp
  have h1 : (sanitizeShootMedia tf pf).1
      = sanitizeThumbnail (rawThumbOf tf)
          (sanitizePhotos (canonicalImageKey (rawThumbOf tf)) (candidatePhotosOf pf)) := rfl
  have h2 : (sanitizeShootMedia tf pf).2
      = if jsTruthy (sanitizeThumbnail (rawThumbOf tf)
            (sanitizePhotos (canonicalImageKey (rawThumbOf tf)) (candidatePhotosOf pf))) then
          (sanitizePhotos (canonicalImageKey (rawThumbOf tf)) (candidatePhotosOf pf)).filter
            (fun value => canonicalImageKeyJ value
              != canonicalImageKeyJ (sanitizeThumbnail (rawThumbOf tf)
                   (sanitizePhotos (canonicalImageKey (rawThumbOf tf)) (candidatePhotosOf pf))))
        else sanitizePhotos (canonicalImageKey (rawThumbOf tf)) (candidatePhotosOf pf) := rfl
  rw [h1]
  rw [h2] at hp
  by_cases ht : jsTruthy (sanitizeThumbnail (rawThumbOf tf)
      (sanitizePhotos (canonicalImageKey (rawThumbOf tf)) (candidatePhotosOf pf))) = true
  · rw [if_pos ht] at hp
    have := (List.mem_filter.1 hp).2
    simpa using this
  · rw [if_neg ht] at hp
    have htz := sanitizeThumbnail_of_untruthy (Bool.eq_false_iff.2 ht)
    rw [htz, canonicalImageKeyJ_empty_str]
    exact (sanitize_photos_entries hp).2

/-- The thumbnail returned by `sanitizeShootMedia` is empty or image-looking. -/
theorem sanitizeShootMedia_thumb_ok (tf pf : Json) :
    (sanitizeShootMedia tf pf).1 = Json.str "" ∨
      looksLikeImageUrlJ (sanitizeShootMedia tf pf).1 = true := by
  have h1 : (sanitizeShootMedia tf pf).1
      = sanitizeThumbnail (rawThumbOf tf)
          (sanitizePhotos (canonicalImageKey (rawThumbOf tf)) (candidatePhotosOf pf)) := rfl
  rw [h1]
  exact sanitizeThumbnail_cases _ _ (fun p hp => (sanitize_photos_entries hp).1)

/-- C1: no photo of a normalized shoot shares its canonical dedupe key with
the shoot's thumbnail, the same holds for `sanitizeShootMedia` applied to
any (even legacy cached) field values, and hence for every shoot in any
response `handleShoots` produces, since sanitization is re-applied on every
read. -/
theorem spec_C1 :
    (∀ order : Json, ∀ p ∈ (normalizeShoot order).photos,
        canonicalImageKeyJ p ≠ canonicalImageKeyJ (normalizeShoot order).thumbnail_url)
  ∧ (∀ tf pf : Json, ∀ p ∈ (sanitizeShootMedia tf pf).2,
        canonicalImageKeyJ p ≠ canonicalImageKeyJ (sanitizeShootMedia tf pf).1)
  ∧ (∀ (ttl now : Int) (s : ServerState) (limitRaw refreshRaw : Option String)
        (resp : ShootsResponse),
        (handleShoots ttl now s limitRaw refreshRaw).2 = some resp →
        ∀ sh ∈ resp.shoots, ∀ p ∈ sh.2, canonicalImageKeyJ p ≠ canonicalImageKeyJ sh.1) := by
  refine ⟨?_, sanitizeShootMedia_disjoint, ?_⟩
  · intro order p hp
    have h1 : (normalizeShoot order).thumbnail_url
        = (sanitizeShootMedia (.str (pickImage order))
            (.arr ((normalizePhotos order).map Json.str))).1 := rfl
    have h2 : (normalizeShoot order).photos
        = (sanitizeShootMedia (.str (pickImage order))
            (.arr ((normalizePhotos order).map Json.str))).2 := rfl
    rw [h1]
    rw [h2] at hp
    exact sanitizeShootMedia_disjoint _ _ p hp
  · intro ttl now s limitRaw refreshRaw resp hresp sh hsh p hp
    by_cases hne : s.cache.shoots.length = 0
    · exfalso
      rw [show (handleShoots ttl now s limitRaw refreshRaw).2 = none by
        simp [handleShoots, hne]] at hresp
      exact Option.noConfusion hresp
    · obtain ⟨s1, _, heq⟩ := handleShoots_serves ttl now s limitRaw refreshRaw hne
      rw [heq] at hresp
      have hr : resp = serveShoots ttl now s1 (pageSizeOf limitRaw) :=
        (Option.some.inj hresp).symm
      rw [hr] at hsh
      have hsh2 : sh ∈ s1.cache.shoots.map sanitizeShootMediaOf :=
        List.take_subset _ _ hsh
      rcases List.mem_map.1 hsh2 with ⟨shoot, _, rfl⟩
      exact sanitizeShootMedia_disjoint _ _ p hp

/-- Witness for C1: sanitizing a shoot with no usable raw thumbnail and two
distinct photos promotes the first photo to thumbnail and the surviving
photo's key differs from the thumbnail's. -/
theorem spec_C1_witness :
    Json.str "https://b.example/b.jpg"
        ∈ (sanitizeShootMedia Json.null
            (Json.arr [Json.str "https://a.example/a.jpg",
                       Json.str "https://b.example/b.jpg"])).2
  ∧ canonicalImageKeyJ (Json.str "https://b.example/b.jpg")
      ≠ canonicalImageKeyJ (sanitizeShootMedia Json.null
          (Json.arr [Json.str "https://a.example/a.jpg",
                     Json.str "https://b.example/b.jpg"])).1 := by
  have hmem : Json.str "https://b.example/b.jpg"
      ∈ (sanitizeShootMedia Json.null
          (Json.arr [Json.str "https://a.example/a.jpg",
                     Json.str "https://b.example/b.jpg"])).2 := by
    rw [show (sanitizeShootMedia Json.null
        (Json.arr [Json.str "https://a.example/a.jpg",
                   Json.str "https://b.example/b.jpg"])).2
      = [Json.str "https://b.example/b.jpg"] from rfl]
    exact List.mem_singleton.2 rfl
  exact ⟨hmem, spec_C1.2.1 Json.null
    (Json.arr [Json.str "https://a.example/a.jpg", Json.str "https://b.example/b.jpg"])
    (Json.str "https://b.example/b.jpg") hmem⟩

/-- C10: every thumbnail emitted by `sanitizeShootMedia` -- hence by
`normalizeShoot` -- is the empty string or a URL accepted by
`looksLikeImageUrl`; when the raw hero scan produced a non-image value, the
thumbnail is exactly the `photos[0] || ""` fallback. -/
theorem spec_C10 :
    (∀ tf pf : Json, (sanitizeShootMedia tf pf).1 = Json.str "" ∨
        looksLikeImageUrlJ (sanitizeShootMedia tf pf).1 = true)
  ∧ (∀ order : Json, (normalizeShoot order).thumbnail_url = Json.str "" ∨
        looksLikeImageUrlJ (normalizeShoot order).thumbnail_url = true)
  ∧ (∀ tf pf : Json, looksLikeImageUrl (rawThumbOf tf) = false →
        (sanitizeShootMedia tf pf).1
          = jsOr ((sanitizePhotos (canonicalImageKey (rawThumbOf tf))
              (candidatePhotosOf pf)).headD Json.null) (Json.str "")) := by
  refine ⟨sanitizeShootMedia_thumb_ok, ?_, ?_⟩
  · intro order
    have h1 : (normalizeShoot order).thumbnail_url
        = (sanitizeShootMedia (.str (pickImage order))
            (.arr ((normalizePhotos order).map Json.str))).1 := rfl
    rw [h1]
    exact sanitizeShootMedia_thumb_ok _ _
  · intro tf pf h
    have h1 : (sanitizeShootMedia tf pf).1
        = sanitizeThumbnail (rawThumbOf tf)
            (sanitizePhotos (canonicalImageKey (rawThumbOf tf)) (candidatePhotosOf pf)) := rfl
    rw [h1, sanitizeThumbnail, if_neg (by rw [h]; exact Bool.false_ne_true)]

/-- Witness for C10: a raw `.mp4` hero candidate is rejected and the
thumbnail falls back to the first surviving photo. -/
theorem spec_C10_witness :
    looksLikeImageUrl (rawThumbOf (Json.str "https://a.example/tour.mp4")) = false
  ∧ (sanitizeShootMedia (Json.str "https://a.example/tour.mp4")
        (Json.arr [Json.str "https://a.example/a.jpg"])).1
      = jsOr ((sanitizePhotos
          (canonicalImageKey (rawThumbOf (Json.str "https://a.example/tour.mp4")))
          (candidatePhotosOf (Json.arr [Json.str "https://a.example/a.jpg"]))).headD Json.null)
          (Json.str "") :=
  ⟨by decide,
   spec_C10.2.2 (Json.str "https://a.example/tour.mp4")
     (Json.arr [Json.str "https://a.example/a.jpg"]) (by decide)⟩

/-- C5 (amended): within one record, when two image-URL candidates share a
canonical dedupe key and have equal quality scores, the extractor keeps the
last-seen candidate's URL: the comparison `next.score >= current.score`
favors replacement on ties. -/
theorem spec_C5 (k1 k2 K u1 u2 : String)
    (h1 : looksLikeImageUrl u1 = true) (h2 : looksLikeImageUrl u2 = true)
    (hk1 : canonicalImageKey u1 = K) (hk2 : canonicalImageKey u2 = K)
    (hK : K ≠ "")
    (hscore : imageQualityScore u2 = imageQualityScore u1) :
    lookupAssoc (collectImageUrls (Json.obj [(k1, Json.str u1), (k2, Json.str u2)]) []) K
      = some ⟨u2, imageQualityScore u2⟩ := by
  have e0 : collectImageUrls (Json.obj [(k1, Json.str u1), (k2, Json.str u2)]) []
      = collectEntry k2 (Json.str u2) (collectEntry k1 (Json.str u1) []) := rfl
  have estep1 : collectEntry k1 (Json.str u1) [] = collectCandidate u1 [] := by
    simp [collectEntry, h1]
  have ecand1 : collectCandidate u1 []
      = [(K, ⟨u1, imageQualityScore u1⟩)] := by
    simp [collectCandidate, hk1, hK, lookupAssoc, setAssoc]
  have estep2 : collectEntry k2 (Json.str u2) [(K, ⟨u1, imageQualityScore u1⟩)]
      = collectCandidate u2 [(K, ⟨u1, imageQualityScore u1⟩)] := by
    simp [collectEntry, h2]
  have ecand2 : collectCandidate u2 [(K, ⟨u1, imageQualityScore u1⟩)]
      = [(K, ⟨u2, imageQualityScore u2⟩)] := by
    simp [collectCandidate, hk2, hK, lookupAssoc, setAssoc, hscore]
  rw [e0, estep1, ecand1, estep2, ecand2]
  simp [lookupAssoc]

/-- Counterexample for C5 as frozen: two same-key, equal-score (both `0`)
candidates inside one record; the extractor's map holds the second (last
seen) URL, not the first-seen one the claim requires. -/
theorem spec_C5_counterexample :
    lookupAssoc (collectImageUrls (Json.obj
        [("a", Json.str "https://a.example/123e4567-e89b-42d3-a456-426614174000.jpg"),
         ("b", Json.str "https://b.example/123e4567-e89b-42d3-a456-426614174000.jpg")]) [])
      "uuid:123e4567-e89b-42d3-a456-426614174000"
      = some ⟨"https://b.example/123e4567-e89b-42d3-a456-426614174000.jpg", 0⟩
  ∧ ("https://b.example/123e4567-e89b-42d3-a456-426614174000.jpg" : String)
      ≠ "https://a.example/123e4567-e89b-42d3-a456-426614174000.jpg"
  ∧ imageQualityScore "https://a.example/123e4567-e89b-42d3-a456-426614174000.jpg"
      = imageQualityScore "https://b.example/123e4567-e89b-42d3-a456-426614174000.jpg"
  ∧ canonicalImageKey "https://a.example/123e4567-e89b-42d3-a456-426614174000.jpg"
      = "uuid:123e4567-e89b-42d3-a456-426614174000"
  ∧ canonicalImageKey "https://b.example/123e4567-e89b-42d3-a456-426614174000.jpg"
      = "uuid:123e4567-e89b-42d3-a456-426614174000" :=
  ⟨by decide, by decide, by decide, by decide, by decide⟩

/-- Witness for C5 at the concrete same-key equal-score pair. -/
theorem spec_C5_witness :
    lookupAssoc (collectImageUrls (Json.obj
        [("a", Json.str "https://a.example/123e4567-e89b-42d3-a456-426614174000.jpg"),
         ("b", Json.str "https://b.example/123e4567-e89b-42d3-a456-426614174000.jpg")]) [])
      "uuid:123e4567-e89b-42d3-a456-426614174000"
      = some ⟨"https://b.example/123e4567-e89b-42d3-a456-426614174000.jpg",
              imageQualityScore "https://b.example/123e4567-e89b-42d3-a456-426614174000.jpg"⟩ :=
  spec_C5 "a" "b" "uuid:123e4567-e89b-42d3-a456-426614174000"
    "https://a.example/123e4567-e89b-42d3-a456-426614174000.jpg"
    "https://b.example/123e4567-e89b-42d3-a456-426614174000.jpg"
    (by decide) (by decide) (by decide) (by decide) (by decide) (by decide)

theorem jsTruthy_jsOr_right {x y : Json} (h : jsTruthy y = true) :
    jsTruthy (jsOr x y) = true := by
  rw [jsOr]
  by_cases hx : jsTruthy x = true
  · rw [if_pos hx]
    exact hx
  · rw [if_neg hx]
    exact h

theorem listingOf_truthy (order : Json) : jsTruthy (listingOf order) = true := by
  have h : listingOf order
      = jsOr (order.getF "listing") (jsOr (order.getF "property") (Json.obj [])) := rfl
  rw [h]
  exact jsTruthy_jsOr_right (jsTruthy_jsOr_right rfl)

/-- The value `normalizeShoot` hands to `normalizeAddress` is always truthy:
the fallback chain bottoms out at `listing`, which is itself `{}` at worst,
so the `"Address unavailable"` branch of `normalizeAddress` is unreachable
from `normalizeShoot`. -/
theorem addressArg_truthy (order : Json) : jsTruthy (addressArg order) = true := by
  have h : addressArg order
      = jsOr ((listingOf order).getF "address")
          (jsOr (order.getF "address") (listingOf order)) := rfl
  rw [h]
  exact jsTruthy_jsOr_right (jsTruthy_jsOr_right (listingOf_truthy order))

/-- C6 (amended): `normalizeShoot` resolves the address from
`listing?.address || order?.address || listing` in this order: a raw string
address verbatim; a structured address object joined from its present
street/city/state/postal parts; else a JSON excerpt of at most 120
characters.  The resolved argument is always truthy (the chain bottoms out
at the defaulted `{}` listing), so the literal `"Address unavailable"` is
unreachable from `normalizeShoot`: a record with no address data at all
gets the JSON excerpt of the empty listing, the string `"{}"`. -/
theorem spec_C6 :
    (∀ order : Json, jsTruthy (addressArg order) = true)
  ∧ (∀ (order : Json) (s : String), addressArg order = Json.str s →
        (normalizeShoot order).address = s)
  ∧ (∀ (order : Json) (fs : List (String × Json)), addressArg order = Json.obj fs →
        (addressPieces (Json.obj fs)).isEmpty = false →
        (normalizeShoot order).address = joinPieces (addressPieces (Json.obj fs)))
  ∧ (∀ (order : Json) (fs : List (String × Json)), addressArg order = Json.obj fs →
        (addressPieces (Json.obj fs)).isEmpty = true →
        (normalizeShoot order).address = strTake (jsonStringify (Json.obj fs)) 120
      ∧ (normalizeShoot order).address.length ≤ 120)
  ∧ (normalizeShoot (Json.obj [])).address = "\x7b\x7d" := by
  have haddr : ∀ order : Json,
      (normalizeShoot order).address = normalizeAddress (addressArg order) := fun _ => rfl
  refine ⟨addressArg_truthy, ?_, ?_, ?_, by decide⟩
  · intro order s h
    have ht : jsTruthy (Json.str s) = true := h ▸ addressArg_truthy order
    rw [haddr, h]
    simp [normalizeAddress, ht]
  · intro order fs h hne
    rw [haddr, h]
    simp [normalizeAddress, jsTruthy, hne]
  · intro order fs h he
    have h1 : (normalizeShoot order).address = strTake (jsonStringify (Json.obj fs)) 120 := by
      rw [haddr, h]
      simp [normalizeAddress, jsTruthy, he]
    refine ⟨h1, ?_⟩
    rw [h1]
    have h2 : ∀ l : List Char, (String.mk l).length = l.length := fun _ => rfl
    rw [strTake, h2, List.length_take]
    exact min_le_left 120 _

/-- Counterexample for C6 as frozen: a record with no address data at all
resolves to the JSON excerpt `"{}"` of the defaulted empty listing, not to
the literal `"Address unavailable"`. -/
theorem spec_C6_counterexample :
    (normalizeShoot (Json.obj [])).address = "\x7b\x7d"
  ∧ (normalizeShoot (Json.obj [])).address ≠ "Address unavailable" :=
  ⟨by decide, by decide⟩

/-- Witness for C6 on the three reachable branches: a raw string address, a
structured address joined from its present parts, and an unrecognized
address object reduced to its bounded JSON excerpt. -/
theorem spec_C6_witness :
    (normalizeShoot (Json.obj [("address", Json.str "12 Oak St, Austin")])).address
      = "12 Oak St, Austin"
  ∧ (normalizeShoot (Json.obj [("listing", Json.obj [("address",
        Json.obj [("city", Json.str "Austin"), ("state", Json.str "TX")])])])).address
      = joinPieces (addressPieces (Json.obj [("city", Json.str "Austin"),
          ("state", Json.str "TX")]))
  ∧ (normalizeShoot (Json.obj [("listing", Json.obj [("address",
        Json.obj [("zipcode", Json.str "78701")])])])).address
      = strTake (jsonStringify (Json.obj [("zipcode", Json.str "78701")])) 120
  ∧ (normalizeShoot (Json.obj [("listing", Json.obj [("address",
        Json.obj [("zipcode", Json.str "78701")])])])).address.length ≤ 120 := by
  have w1 := spec_C6.2.1 (Json.obj [("address", Json.str "12 Oak St, Austin")])
    "12 Oak St, Austin" rfl
  have w2 := spec_C6.2.2.1 (Json.obj [("listing", Json.obj [("address",
      Json.obj [("city", Json.str "Austin"), ("state", Json.str "TX")])])])
    [("city", Json.str "Austin"), ("state", Json.str "TX")] rfl (by decide)
  have w3 := spec_C6.2.2.2.1 (Json.obj [("listing", Json.obj [("address",
      Json.obj [("zipcode", Json.str "78701")])])])
    [("zipcode", Json.str "78701")] rfl (by decide)
  exact ⟨w1, w2, w3.1, w3.2⟩
